import Mathlib

/-!
Formal model of the EDA pipeline in `src/eda.py` (karinaDen/ITMO_data_analysis).

The script is a single linear batch transform: load a transactions table and an
optional wide exchange-rate table, drop rows with missing key fields, coerce
timestamps to UTC, convert amounts to USD by a date-aligned left join, compute
aggregates (fraud KPIs, fraud rate by hour, a percentile-based customer metric)
and emit a markdown report.

Embedding conventions:
- dataframes are lists of records; a column that may be absent from the input
  file is a table-level Boolean flag (pandas `"col" in tx.columns`);
- host floating-point arithmetic is modelled by exact rationals;
- a missing cell (NaN/NaT/None) is `Option.none`;
- the exchange-rate table is keyed by date (one wide row per date), so the
  melted long table has at most one entry per (date, currency) pair and the
  pandas left merge is modelled by a first-match lookup;
- exceptions are modelled by `Except`.
-/

set_option autoImplicit false

namespace Eda

/-- A raw timestamp cell value: either coercible to a UTC instant (modelled as
whole seconds since the epoch) or a value that `pd.to_datetime(..., errors :=
coerce)` turns into NaT. -/
inductive RawTs where
  | valid (t : Int)
  | invalid
  deriving DecidableEq, Repr

/-- A dynamic value inside the nested `last_hour_activity` mapping: the script
only treats numeric values meaningfully; anything non-numeric makes the pandas
median aggregation raise. -/
inductive PyVal where
  | num (q : ℚ)
  | str (s : String)
  deriving DecidableEq, Repr

/-- The nested `last_hour_activity` cell: a Python dict (a key-value mapping)
or some other non-dict value (`isinstance(x, dict)` fails). -/
inductive Activity where
  | dict (entries : List (String × PyVal))
  | other
  deriving DecidableEq, Repr

/-- One raw transaction row as loaded from the parquet file.  Fields the
script may find missing in a cell are `Option`-valued. -/
structure Row where
  customer_id : String
  timestamp : Option RawTs
  amount : Option ℚ
  currency : Option String
  country : String
  is_fraud : Bool
  last_hour_activity : Option Activity
  deriving DecidableEq, Repr

/-- A transaction row after the two `dropna` passes and the UTC coercion:
timestamp, amount and currency are all present. -/
structure CleanRow where
  customer_id : String
  timestamp : Int
  amount : ℚ
  currency : String
  country : String
  is_fraud : Bool
  last_hour_activity : Option Activity
  deriving DecidableEq, Repr

/-- `pd.to_datetime(ts, utc := true, errors := coerce)`: a missing cell stays
missing (NaT), an uncoercible value becomes missing, a valid one becomes a UTC
instant. -/
def to_utc : Option RawTs → Option Int
  | some (RawTs.valid t) => some t
  | some RawTs.invalid => none
  | none => none

/-- The first `dropna(subset := [timestamp, amount, currency])`: keep rows
whose three key cells are present. -/
def keyPresent (r : Row) : Bool :=
  r.timestamp.isSome && r.amount.isSome && r.currency.isSome

/-- Build the cleaned row if the key fields are present and the timestamp
coerces; `none` exactly when one of the two `dropna` passes drops the row. -/
def cleanRow (r : Row) : Option CleanRow :=
  match r.amount, r.currency, to_utc r.timestamp with
  | some a, some c, some t =>
      some ⟨r.customer_id, t, a, c, r.country, r.is_fraud, r.last_hour_activity⟩
  | _, _, _ => none

/-- The cleaning stage of `main`: `dropna` on the key columns, UTC coercion,
then `dropna` on the coerced timestamp (the `filterMap` drops coercion
failures). -/
def clean (tx : List Row) : List CleanRow :=
  (tx.filter keyPresent).filterMap cleanRow

/-- A row survives cleaning if and only if its key cells are present and its
timestamp coerces; this is the predicate the script drops rows by. -/
def goodRow (r : Row) : Bool :=
  (to_utc r.timestamp).isSome && r.amount.isSome && r.currency.isSome

/-- `tx[timestamp].dt.date`: the calendar-day number of a UTC instant
(floor division by 86400 seconds). -/
def dateOf (t : Int) : Int := Int.fdiv t 86400

/-- `tx[timestamp].dt.hour`: the hour of day of a UTC instant, in [0, 23]. -/
def hourOf (t : Int) : Nat := (Int.emod t 86400).toNat / 3600

/-- The wide exchange-rate table: a date column plus one column per currency;
the cell (d, c) holds units of currency c per one USD on day d, possibly
missing.  `hasDateCol` is false when the file lacks the date column. -/
structure FxWide where
  hasDateCol : Bool
  currencies : List String
  rows : List (Int × List (Option ℚ))
  deriving DecidableEq, Repr

/-- One row of the melted long exchange-rate table. -/
structure FxEntry where
  date : Int
  currency : String
  per_usd : Option ℚ
  deriving DecidableEq, Repr

/-- `fx.melt(id_vars := [date], var_name := currency, value_name := per_usd)`:
stack the wide table column by column into (date, currency, rate) rows. -/
def melt (fx : FxWide) : List FxEntry :=
  fx.currencies.enum.flatMap (fun ic =>
    fx.rows.map (fun dr => ⟨dr.1, ic.2, dr.2.getD ic.1 none⟩))

/-- The left merge on (date, currency), as a lookup into the long table:
`none` when the pair is unmatched (the joined `per_usd` cell is NaN),
`some v` when an entry matches, whose own rate cell `v` may itself be
missing. -/
def lookupRate (fxl : List FxEntry) (d : Int) (c : String) : Option (Option ℚ) :=
  (fxl.find? (fun e => e.date == d && e.currency == c)).map (fun e => e.per_usd)

/-- The converted amount of one cleaned row (`amount_usd`): identity when the
rate table is absent or lacks a date column; under a date-keyed table, USD rows
keep their amount (the `np.where` condition), other rows are divided by the
joined rate, and a missing or unmatched rate propagates as a missing result. -/
def convertAmount (fx : Option FxWide) (r : CleanRow) : Option ℚ :=
  match fx with
  | none => some r.amount
  | some f =>
      if f.hasDateCol then
        if r.currency = "USD" then some r.amount
        else
          match lookupRate (melt f) (dateOf r.timestamp) r.currency with
          | some (some rate) => some (r.amount / rate)
          | _ => none
      else some r.amount

/-- A Python try/except block around a fallible computation: the handler runs
exactly when the body raises. -/
def tryCatch {α : Type} (body : Except String α) (handler : String → Except String α) :
    Except String α :=
  match body with
  | Except.ok t => Except.ok t
  | Except.error e => handler e

/-- The loader of `src/eda.py`: try the primary columnar reader
(`pd.read_parquet`); on any exception fall back to the analytical engine
(duckdb) on the same file; if that also raises, raise a RuntimeError naming
the path and the underlying cause.  The two strategies are passed as the
results of running them on the file at `path`. -/
def load_parquet {α : Type} (path : String) (primary fallback : Except String α) :
    Except String α :=
  tryCatch primary (fun _ =>
    tryCatch fallback (fun e => Except.error ("Cannot read " ++ path ++ ": " ++ e)))

/-- `total = len(tx)` after cleaning. -/
def totalOf (tx : List Row) : Nat := (clean tx).length

/-- `int(tx[is_fraud].sum())`: the number of fraudulent rows. -/
def fraudCountN (rows : List CleanRow) : Nat :=
  rows.countP (fun r => r.is_fraud)

/-- `float(tx[is_fraud].mean() * 100)`: the fraud rate as a percentage.  The
host mean of an empty column is NaN; here division by zero yields the junk
value 0, and no claim depends on the empty-table value. -/
def fraudRatePct (rows : List CleanRow) : ℚ :=
  ((fraudCountN rows : ℚ) / (rows.length : ℚ)) * 100

/-- The histogram input `tx[amount_usd].dropna()`: converted amounts with
missing values excluded. -/
def amountsUsd (fx : Option FxWide) (rows : List CleanRow) : List ℚ :=
  rows.filterMap (convertAmount fx)

/-- `tx.groupby(hour)[is_fraud].mean()`: the series is defined at an hour
value exactly when some row has that derived hour, and there equals the mean
of the fraud indicator over the rows with that hour. -/
def fraudRateByHour (rows : List CleanRow) (h : Nat) : Option ℚ :=
  let g := rows.filter (fun r => hourOf r.timestamp == h)
  if g.isEmpty then none
  else some ((g.countP (fun r => r.is_fraud) : ℚ) / (g.length : ℚ))

/-- The lambda of the percentile metric:
`x.get(unique_merchants) if isinstance(x, dict) else None`. -/
def extractUniq : Option Activity → Option PyVal
  | some (Activity.dict es) =>
      (es.find? (fun p => p.1 == "unique_merchants")).map (fun p => p.2)
  | _ => none

/-- `tmp.dropna(subset := [uniq_last_hour])`: the (customer, value) pairs of
the rows whose extracted nested value is present. -/
def extracted (rows : List CleanRow) : List (String × PyVal) :=
  rows.filterMap (fun r =>
    (extractUniq r.last_hour_activity).map (fun v => (r.customer_id, v)))

/-- The pandas median aggregation succeeds only on numeric values; a
non-numeric value in the column makes it raise, which the script catches.
`asNums` is `some` of the numeric values when all values are numeric. -/
def asNums : List (String × PyVal) → Option (List (String × ℚ))
  | [] => some []
  | (c, PyVal.num q) :: rest => (asNums rest).map (fun l => (c, q) :: l)
  | (_, PyVal.str _) :: _ => none

/-- The distinct customer ids of the grouped table (`groupby(customer_id)`);
key order does not affect any aggregate the script reports. -/
def customerList (ps : List (String × ℚ)) : List String :=
  (ps.map (fun p => p.1)).dedup

/-- The values of one customer group. -/
def valuesFor (ps : List (String × ℚ)) (c : String) : List ℚ :=
  (ps.filter (fun p => p.1 == c)).map (fun p => p.2)

/-- Ascending sort of a rational column. -/
def sortQ (l : List ℚ) : List ℚ :=
  List.insertionSort (fun a b => a ≤ b) l

/-- The pandas median: middle element of the sorted values for odd length,
average of the two middle elements for even length, undefined when empty. -/
def median (l : List ℚ) : Option ℚ :=
  if l.length = 0 then none
  else
    let s := sortQ l
    let n := l.length
    if n % 2 = 1 then some (s.getD (n / 2) 0)
    else some ((s.getD (n / 2 - 1) 0 + s.getD (n / 2) 0) / 2)

/-- The median with a junk default for the empty column; every group a
`groupby` produces is nonempty, so the default is never aggregated. -/
def medianD (l : List ℚ) : ℚ := (median l).getD 0

/-- `med.quantile(0.95, interpolation := linear)`: with sorted values
s_0 ... s_(n-1), the position is h = 0.95 * (n - 1), and the result
interpolates linearly between s_i at i = floor h and its successor.
Undefined (NaN) on an empty column. -/
def quantile95 (l : List ℚ) : Option ℚ :=
  if l.length = 0 then none
  else
    let s := sortQ l
    let n := l.length
    let i : Nat := 19 * (n - 1) / 20
    let frac : ℚ := ((19 * (n - 1) : Nat) : ℚ) / 20 - (i : ℚ)
    some (s.getD i 0 + frac * (s.getD (i + 1) (s.getD i 0) - s.getD i 0))

/-- The per-customer medians `med = tmp.groupby(customer_id)[uniq].median()`. -/
def q60Medians (ps : List (String × ℚ)) : List ℚ :=
  (customerList ps).map (fun c => medianD (valuesFor ps c))

/-- The percentile-based customer metric: number of customers whose median
unique-merchants value is strictly above the 95th percentile of all customer
medians.  `Except.error` models the caught parse/aggregation failure branch;
comparison against the undefined (NaN) percentile of an empty median set is
false for every row, giving a count of 0. -/
def q60Metric (rows : List CleanRow) : Except String Nat :=
  match asNums (extracted rows) with
  | none => Except.error ("TypeError: could not aggregate non-numeric values")
  | some ps =>
      match quantile95 (q60Medians ps) with
      | none => Except.ok 0
      | some thr => Except.ok ((q60Medians ps).countP (fun m => decide (thr < m)))

/-- One line of the markdown report, abstracted from its literal text. -/
inductive ReportLine where
  | header
  | blank
  | totalLine (n : Nat)
  | fraudLine (n : Nat)
  | fraudRateLine (r : ℚ)
  | amountColLine
  | top5Header
  | top5Entry (country : String) (n : Nat)
  | q60Header
  | q60Line (n : Nat)
  | q60FailHeader
  | q60FailLine (e : String)
  deriving DecidableEq, Repr

/-- Fraud counts per country among fraudulent rows, in order of first
occurrence. -/
def countryCounts (rows : List CleanRow) : List (String × Nat) :=
  let frs := rows.filter (fun r => r.is_fraud)
  ((frs.map (fun r => r.country)).dedup).map
    (fun c => (c, frs.countP (fun r => r.country == c)))

/-- `value_counts().head(5)`: countries sorted by fraud count descending,
first five.  Ties keep first-occurrence order, a determinization of the
host order which no reported claim depends on. -/
def top5 (rows : List CleanRow) : List (String × Nat) :=
  (List.insertionSort (fun a b => b.2 ≤ a.2) (countryCounts rows)).take 5

/-- The transactions table as loaded: per-column presence flags plus rows. -/
structure TxInput where
  hasFraudCol : Bool
  hasCountryCol : Bool
  hasLastHourCol : Bool
  rows : List Row
  deriving Repr

/-- The markdown report body, line by line, as `main` builds it: header,
total, fraud KPIs when the fraud column exists, the normalized-amount note
(the column is assigned on every path), the top-5 fraud countries when both
needed columns exist, and the percentile-metric section (or its failure
diagnostic) when the nested-activity column exists. -/
def reportLines (inp : TxInput) : List ReportLine :=
  let rows := clean inp.rows
  [ReportLine.header, ReportLine.blank, ReportLine.totalLine rows.length]
    ++ (if inp.hasFraudCol then
          [ReportLine.fraudLine (fraudCountN rows),
           ReportLine.fraudRateLine (fraudRatePct rows)]
        else [])
    ++ [ReportLine.amountColLine]
    ++ (if inp.hasFraudCol && inp.hasCountryCol then
          ReportLine.blank :: ReportLine.top5Header ::
            (top5 rows).map (fun p => ReportLine.top5Entry p.1 p.2)
        else [])
    ++ (if inp.hasLastHourCol then
          match q60Metric rows with
          | Except.ok n =>
              [ReportLine.blank, ReportLine.q60Header, ReportLine.q60Line n]
          | Except.error e =>
              [ReportLine.blank, ReportLine.q60FailHeader, ReportLine.q60FailLine e]
        else [])

end Eda

namespace Eda

/-- C1: with a date-keyed rate table present, a row already in the reference
currency (USD) keeps its raw amount exactly. -/
theorem usd_rows_keep_amount (f : FxWide) (hf : f.hasDateCol = true)
    (r : CleanRow) (hc : r.currency = "USD") :
    convertAmount (some f) r = some r.amount := by
  simp [convertAmount, hf, hc]

/-- Witness for C1 at a concrete row and table. -/
theorem usd_rows_keep_amount_witness :
    convertAmount
      (some ⟨true, ["EUR"], [(19000, [some (9/10)])]⟩)
      ⟨"c1", 1641600000, 100, "USD", "US", false, none⟩ = some 100 := by
  exact usd_rows_keep_amount _ rfl _ rfl

/-- C2: with a date-keyed rate table present, a non-USD row whose
(date, currency) pair matches a present rate R converts to amount / R. -/
theorem matched_rate_divides (f : FxWide) (hf : f.hasDateCol = true)
    (r : CleanRow) (hc : r.currency ≠ "USD") (R : ℚ)
    (hR : lookupRate (melt f) (dateOf r.timestamp) r.currency = some (some R)) :
    convertAmount (some f) r = some (r.amount / R) := by
  simp [convertAmount, hf, hc, hR]

/-- Witness for C2, the scenario of the specification: 50 EUR at a rate of
0.9 EUR per USD converts to 50 / 0.9 = 500/9. -/
theorem matched_rate_divides_witness :
    lookupRate (melt ⟨true, ["EUR"], [(19000, [some (9/10)])]⟩) 19000 "EUR"
        = some (some (9/10)) ∧
    convertAmount
      (some ⟨true, ["EUR"], [(19000, [some (9/10)])]⟩)
      ⟨"c2", 1641600000, 50, "EUR", "FR", false, none⟩ = some (500/9) := by
  constructor
  · rfl
  · have h := matched_rate_divides ⟨true, ["EUR"], [(19000, [some (9/10)])]⟩ rfl
      ⟨"c2", 1641600000, 50, "EUR", "FR", false, none⟩ (by decide) (9/10) rfl
    rw [h]
    norm_num

/-- C3: when the rate table is absent, or present without a date column, the
converted amount is the raw amount for every row, with no failure path. -/
theorem no_rate_table_identity (fx : Option FxWide)
    (h : fx = none ∨ ∃ f, fx = some f ∧ f.hasDateCol = false) (r : CleanRow) :
    convertAmount fx r = some r.amount := by
  rcases h with h | ⟨f, rfl, hf⟩
  · subst h; rfl
  · simp [convertAmount, hf]

/-- Witness for C3 at a concrete row with the table absent. -/
theorem no_rate_table_identity_witness :
    convertAmount none ⟨"c3", 0, 7, "GBP", "UK", false, none⟩ = some 7 := by
  exact no_rate_table_identity none (Or.inl rfl) _

/-- C4: with a date-keyed rate table present, a non-USD row whose
(date, currency) pair is unmatched in the left join gets a missing converted
amount, not the raw amount. -/
theorem unmatched_rate_missing (f : FxWide) (hf : f.hasDateCol = true)
    (r : CleanRow) (hc : r.currency ≠ "USD")
    (hm : lookupRate (melt f) (dateOf r.timestamp) r.currency = none) :
    convertAmount (some f) r = none := by
  simp [convertAmount, hf, hc, hm]

/-- Witness for C4: a JPY row against a table that only quotes EUR. -/
theorem unmatched_rate_missing_witness :
    convertAmount
      (some ⟨true, ["EUR"], [(19000, [some (9/10)])]⟩)
      ⟨"c4", 1641600000, 50, "JPY", "JP", false, none⟩ = none := by
  exact unmatched_rate_missing ⟨true, ["EUR"], [(19000, [some (9/10)])]⟩ rfl
    ⟨"c4", 1641600000, 50, "JPY", "JP", false, none⟩ (by decide) rfl

end Eda

namespace Eda

/-- A row builds a cleaned row exactly when it would survive both drops. -/
theorem cleanRow_isSome_eq_good (r : Row) : (cleanRow r).isSome = goodRow r := by
  unfold cleanRow goodRow
  rcases ha : r.amount with _ | a <;> rcases hc : r.currency with _ | c <;>
    rcases ht : to_utc r.timestamp with _ | t <;> simp [ha, hc, ht]

/-- A row dropped by the first pass is dropped by the combined predicate. -/
theorem good_false_of_key_false (r : Row) (h : keyPresent r = false) :
    goodRow r = false := by
  unfold keyPresent at h
  unfold goodRow
  rcases ht : r.timestamp with _ | s
  · simp [to_utc]
  · rw [ht] at h
    simp only [Option.isSome_some, Bool.true_and] at h
    cases hu : (to_utc (some s)).isSome
    · simp [hu]
    · simpa [hu] using h

/-- A row the combined predicate rejects yields no cleaned row. -/
theorem cleanRow_none_of_good_false (r : Row) (h : goodRow r = false) :
    cleanRow r = none := by
  have h2 := cleanRow_isSome_eq_good r
  rw [h] at h2
  exact Option.not_isSome_iff_eq_none.mp (by simp [h2])

/-- The two-pass cleaning stage is one `filterMap`. -/
theorem clean_eq_filterMap (tx : List Row) : clean tx = tx.filterMap cleanRow := by
  unfold clean
  induction tx with
  | nil => rfl
  | cons r t ih =>
      cases hk : keyPresent r with
      | true => simp [List.filter_cons, hk, List.filterMap_cons, ih]
      | false =>
          have hc : cleanRow r = none :=
            cleanRow_none_of_good_false r (good_false_of_key_false r hk)
          simp [List.filter_cons, hk, List.filterMap_cons, hc, ih]

/-- Removing the to-be-dropped rows up front does not change the cleaned
table. -/
theorem clean_filter_good (tx : List Row) :
    clean (tx.filter goodRow) = clean tx := by
  rw [clean_eq_filterMap, clean_eq_filterMap]
  induction tx with
  | nil => rfl
  | cons r t ih =>
      cases hg : goodRow r with
      | true => simp [List.filter_cons, hg, List.filterMap_cons, ih]
      | false =>
          have hc : cleanRow r = none := cleanRow_none_of_good_false r hg
          simp [List.filter_cons, hg, List.filterMap_cons, hc, ih]

/-- C5: rows missing timestamp, amount or currency, and rows whose timestamp
fails UTC coercion, are dropped before conversion: every downstream aggregate
(row count, fraud statistics, amount distribution, fraud rate by hour,
percentile metric) is unchanged if those rows are removed up front, and every
cleaned row originates from a surviving raw row. -/
theorem dropped_rows_never_aggregated (tx : List Row) (fx : Option FxWide) :
    clean tx = clean (tx.filter goodRow) ∧
    totalOf tx = totalOf (tx.filter goodRow) ∧
    fraudCountN (clean tx) = fraudCountN (clean (tx.filter goodRow)) ∧
    fraudRatePct (clean tx) = fraudRatePct (clean (tx.filter goodRow)) ∧
    amountsUsd fx (clean tx) = amountsUsd fx (clean (tx.filter goodRow)) ∧
    (∀ h : Nat,
      fraudRateByHour (clean tx) h = fraudRateByHour (clean (tx.filter goodRow)) h) ∧
    q60Metric (clean tx) = q60Metric (clean (tx.filter goodRow)) ∧
    ∀ c ∈ clean tx, ∃ r ∈ tx, goodRow r = true ∧ cleanRow r = some c := by
  have he : clean (tx.filter goodRow) = clean tx := clean_filter_good tx
  refine ⟨he.symm, ?_, ?_, ?_, ?_, ?_, ?_, ?_⟩
  · unfold totalOf; rw [he]
  · rw [he]
  · rw [he]
  · rw [he]
  · intro h; rw [he]
  · rw [he]
  · intro c hcmem
    rw [clean_eq_filterMap] at hcmem
    obtain ⟨r, hr, hcr⟩ := List.mem_filterMap.mp hcmem
    refine ⟨r, hr, ?_, hcr⟩
    have h2 := cleanRow_isSome_eq_good r
    rw [hcr] at h2
    simpa using h2.symm

/-- Witness for C5: one complete row, one row with a missing timestamp and
one row with an uncoercible timestamp; the dropped rows are invisible. -/
theorem dropped_rows_never_aggregated_witness :
    clean [⟨"a", some (RawTs.valid 3600), some 5, some "USD", "US", true, none⟩,
           ⟨"b", none, some 4, some "EUR", "FR", false, none⟩,
           ⟨"d", some RawTs.invalid, some 3, some "EUR", "FR", false, none⟩] =
      clean ([⟨"a", some (RawTs.valid 3600), some 5, some "USD", "US", true, none⟩,
              ⟨"b", none, some 4, some "EUR", "FR", false, none⟩,
              ⟨"d", some RawTs.invalid, some 3, some "EUR", "FR", false, none⟩].filter goodRow) ∧
    ∃ r ∈ [(⟨"a", some (RawTs.valid 3600), some 5, some "USD", "US", true, none⟩ : Row),
           ⟨"b", none, some 4, some "EUR", "FR", false, none⟩,
           ⟨"d", some RawTs.invalid, some 3, some "EUR", "FR", false, none⟩],
      goodRow r = true ∧ cleanRow r = some ⟨"a", 3600, 5, "USD", "US", true, none⟩ := by
  have h := dropped_rows_never_aggregated
    [⟨"a", some (RawTs.valid 3600), some 5, some "USD", "US", true, none⟩,
     ⟨"b", none, some 4, some "EUR", "FR", false, none⟩,
     ⟨"d", some RawTs.invalid, some 3, some "EUR", "FR", false, none⟩] none
  exact ⟨h.1, h.2.2.2.2.2.2.2 ⟨"a", 3600, 5, "USD", "US", true, none⟩ (by decide)⟩

/-- C9: the loader returns the primary read when it succeeds, the fallback
read when only the primary raises, and when both raise it raises an error
naming the file path and the underlying cause. -/
theorem load_parquet_fallback {α : Type} (path : String)
    (primary fallback : Except String α) :
    (∀ t, primary = Except.ok t →
        load_parquet path primary fallback = Except.ok t) ∧
    (∀ e t, primary = Except.error e → fallback = Except.ok t →
        load_parquet path primary fallback = Except.ok t) ∧
    (∀ e e2, primary = Except.error e → fallback = Except.error e2 →
        load_parquet path primary fallback =
          Except.error ("Cannot read " ++ path ++ ": " ++ e2)) := by
  refine ⟨?_, ?_, ?_⟩
  · intro t h; subst h; rfl
  · intro e t hp hf; subst hp; subst hf; rfl
  · intro e e2 hp hf; subst hp; subst hf; rfl

/-- Witness for C9: all three loader outcomes at concrete inputs. -/
theorem load_parquet_fallback_witness :
    load_parquet "tx.parquet" (Except.ok 1) (Except.error ("io failure")) = Except.ok 1 ∧
    load_parquet "tx.parquet" (Except.error ("corrupt")) (Except.ok 2) = Except.ok 2 ∧
    load_parquet "tx.parquet" (Except.error ("corrupt") : Except String Nat)
        (Except.error ("no engine")) =
      Except.error ("Cannot read tx.parquet: no engine") := by
  refine ⟨?_, ?_, ?_⟩
  · exact (load_parquet_fallback "tx.parquet" (Except.ok 1)
      (Except.error ("io failure"))).1 1 rfl
  · exact (load_parquet_fallback "tx.parquet" (Except.error ("corrupt"))
      (Except.ok 2)).2.1 "corrupt" 2 rfl rfl
  · exact (load_parquet_fallback "tx.parquet" (Except.error ("corrupt"))
      (Except.error ("no engine"))).2.2 "corrupt" "no engine" rfl rfl

end Eda

namespace Eda

/-- The derived hour of any UTC instant lies below 24. -/
theorem hourOf_lt_24 (t : Int) : hourOf t < 24 := by
  unfold hourOf
  have h1 : Int.emod t 86400 < 86400 := Int.emod_lt_of_pos t (by norm_num)
  have h0 : (0 : Int) ≤ Int.emod t 86400 := Int.emod_nonneg t (by norm_num)
  have h2 : (Int.emod t 86400).toNat < 3600 * 24 := by omega
  exact Nat.div_lt_of_lt_mul h2

/-- C8: whenever the fraud-rate-by-hour series is defined at an hour value, that
value is a derived hour of some row, lies in [0, 23], and the series value is
the mean of the fraud indicator over exactly the rows with that derived hour. -/
theorem fraudRateByHour_only_valid_hours (rows : List CleanRow) (h : Nat) (v : ℚ)
    (hv : fraudRateByHour rows h = some v) :
    h < 24 ∧ (∃ r ∈ rows, hourOf r.timestamp = h) ∧
    v = ((rows.filter (fun r => hourOf r.timestamp == h)).countP (fun r => r.is_fraud) : ℚ)
        / ((rows.filter (fun r => hourOf r.timestamp == h)).length : ℚ) := by
  unfold fraudRateByHour at hv
  by_cases hemp : (rows.filter (fun r => hourOf r.timestamp == h)).isEmpty = true
  · simp [hemp] at hv
  · simp only [hemp, if_false] at hv
    have hne : rows.filter (fun r => hourOf r.timestamp == h) ≠ [] := by
      simpa [List.isEmpty_iff] using hemp
    obtain ⟨r0, hr0⟩ := List.exists_mem_of_ne_nil _ hne
    have hmem := List.mem_filter.mp hr0
    have hh : hourOf r0.timestamp = h := by simpa using hmem.2
    refine ⟨?_, ⟨r0, hmem.1, hh⟩, (Option.some.inj hv).symm⟩
    have h24 := hourOf_lt_24 r0.timestamp
    omega

/-- Witness for C8 at one concrete row: timestamp 18000 s derives hour 5 and a
single fraudulent row gives mean 1. -/
theorem fraudRateByHour_only_valid_hours_witness :
    fraudRateByHour [⟨"a", 18000, 5, "USD", "US", true, none⟩] 5 = some 1 ∧
    (5 < 24 ∧
      (∃ r ∈ [(⟨"a", 18000, 5, "USD", "US", true, none⟩ : CleanRow)],
        hourOf r.timestamp = 5) ∧
      (1 : ℚ) =
        (([(⟨"a", 18000, 5, "USD", "US", true, none⟩ : CleanRow)].filter
            (fun r => hourOf r.timestamp == 5)).countP (fun r => r.is_fraud) : ℚ)
          / (([(⟨"a", 18000, 5, "USD", "US", true, none⟩ : CleanRow)].filter
            (fun r => hourOf r.timestamp == 5)).length : ℚ)) := by
  have hf : ([(⟨"a", 18000, 5, "USD", "US", true, none⟩ : CleanRow)].filter
      (fun r => hourOf r.timestamp == 5)) =
      [⟨"a", 18000, 5, "USD", "US", true, none⟩] := by decide
  have hv : fraudRateByHour [⟨"a", 18000, 5, "USD", "US", true, none⟩] 5 = some 1 := by
    unfold fraudRateByHour
    rw [hf]
    norm_num [List.countP_cons, List.countP_nil]
  exact ⟨hv, fraudRateByHour_only_valid_hours _ 5 1 hv⟩

/-- C6: when the nested values all parse as numbers and the median set is
nonempty, the percentile metric equals the number of customers whose
per-customer median lies strictly above the interpolated 95th percentile of
the customer medians. -/
theorem q60_counts_strictly_above (rows : List CleanRow)
    (ps : List (String × ℚ)) (thr : ℚ)
    (hn : asNums (extracted rows) = some ps)
    (hq : quantile95 (q60Medians ps) = some thr) :
    q60Metric rows =
      Except.ok (((customerList ps).filter
        (fun c => decide (thr < medianD (valuesFor ps c)))).length) := by
  unfold q60Metric
  rw [hn]
  simp only [hq]
  unfold q60Medians
  rw [List.countP_map, List.countP_eq_length_filter]
  rfl

/-- Witness for C6: one customer whose single activity value 5 is its own
median and also the 95th percentile; the strict comparison excludes it, so the
count is 0 (a greater-or-equal count would be 1). -/
theorem q60_counts_strictly_above_witness :
    quantile95 (q60Medians [("u", (5 : ℚ))]) = some 5 ∧
    q60Metric [⟨"u", 0, 1, "USD", "US", false,
        some (Activity.dict [("unique_merchants", PyVal.num 5)])⟩] = Except.ok 0 := by
  have hq : quantile95 (q60Medians [("u", (5 : ℚ))]) = some 5 := by
    norm_num [quantile95, q60Medians, customerList, valuesFor, medianD, median, sortQ,
      List.insertionSort, List.orderedInsert, List.dedup]
  refine ⟨hq, ?_⟩
  have h := q60_counts_strictly_above
    [⟨"u", 0, 1, "USD", "US", false,
        some (Activity.dict [("unique_merchants", PyVal.num 5)])⟩]
    [("u", (5 : ℚ))] 5 rfl hq
  rw [h]
  norm_num [customerList, valuesFor, medianD, median, sortQ,
    List.insertionSort, List.orderedInsert, List.dedup]

end Eda

namespace Eda

/-- C7: fraud-count and fraud-rate lines appear in the report exactly when the
fraud indicator column exists, and then carry the fraud count and the mean of
the boolean indicator as a percentage; with the column absent the lines are
omitted rather than reported as zero. -/
theorem fraud_lines_iff (inp : TxInput) :
    (∀ n : Nat, ReportLine.fraudLine n ∈ reportLines inp ↔
      (inp.hasFraudCol = true ∧ n = fraudCountN (clean inp.rows))) ∧
    (∀ q : ℚ, ReportLine.fraudRateLine q ∈ reportLines inp ↔
      (inp.hasFraudCol = true ∧ q = fraudRatePct (clean inp.rows))) := by
  constructor <;> intro x <;>
    · unfold reportLines
      rcases hm : q60Metric (clean inp.rows) with e | k <;>
        cases hf : inp.hasFraudCol <;> cases hc : inp.hasCountryCol <;>
          cases hl : inp.hasLastHourCol <;>
            simp [hm, hf, hc, hl]

/-- C10: when the nested-activity column exists but every surviving row's
extracted unique-merchants value is missing, the metric takes the success
branch, the 95th percentile of the empty median set is undefined, the strict
count is 0, and the report still carries the section with a count of 0 and no
failure diagnostic. -/
theorem all_missing_still_reports_zero (inp : TxInput)
    (hcol : inp.hasLastHourCol = true)
    (hall : ∀ r ∈ clean inp.rows, extractUniq r.last_hour_activity = none) :
    extracted (clean inp.rows) = [] ∧
    quantile95 (q60Medians []) = none ∧
    q60Metric (clean inp.rows) = Except.ok 0 ∧
    ReportLine.q60Header ∈ reportLines inp ∧
    ReportLine.q60Line 0 ∈ reportLines inp ∧
    (∀ e, ReportLine.q60FailLine e ∉ reportLines inp) ∧
    ReportLine.q60FailHeader ∉ reportLines inp := by
  have hext : extracted (clean inp.rows) = [] := by
    apply List.filterMap_eq_nil_iff.mpr
    intro r hr
    rw [hall r hr]
    rfl
  have hmet : q60Metric (clean inp.rows) = Except.ok 0 := by
    unfold q60Metric
    rw [hext]
    rfl
  refine ⟨hext, rfl, hmet, ?_, ?_, ?_, ?_⟩ <;>
    · unfold reportLines
      cases hf : inp.hasFraudCol <;> cases hc : inp.hasCountryCol <;>
        simp [hcol, hmet, hf, hc]

/-- Witness for C10: a non-dict activity value, a missing one, and a dict
without the unique-merchants key; the metric is 0 and the section is still
written. -/
theorem all_missing_still_reports_zero_witness :
    q60Metric (clean
      [⟨"a", some (RawTs.valid 0), some 1, some "USD", "US", false,
          some Activity.other⟩,
       ⟨"b", some (RawTs.valid 0), some 2, some "USD", "US", false, none⟩,
       ⟨"d", some (RawTs.valid 0), some 3, some "USD", "US", false,
          some (Activity.dict [("merchant_count", PyVal.num 3)])⟩]) = Except.ok 0 ∧
    ReportLine.q60Line 0 ∈ reportLines
      ⟨false, false, true,
       [⟨"a", some (RawTs.valid 0), some 1, some "USD", "US", false,
          some Activity.other⟩,
        ⟨"b", some (RawTs.valid 0), some 2, some "USD", "US", false, none⟩,
        ⟨"d", some (RawTs.valid 0), some 3, some "USD", "US", false,
          some (Activity.dict [("merchant_count", PyVal.num 3)])⟩]⟩ := by
  have h := all_missing_still_reports_zero
    ⟨false, false, true,
     [⟨"a", some (RawTs.valid 0), some 1, some "USD", "US", false,
        some Activity.other⟩,
      ⟨"b", some (RawTs.valid 0), some 2, some "USD", "US", false, none⟩,
      ⟨"d", some (RawTs.valid 0), some 3, some "USD", "US", false,
        some (Activity.dict [("merchant_count", PyVal.num 3)])⟩]⟩
    rfl (by decide)
  exact ⟨h.2.2.1, h.2.2.2.2.1⟩

end Eda
